import Mathlib

/-
Verification of the logstash_plugin module
(lib/ansible/modules/monitoring/logstash_plugin.py).

The module is embedded shallowly: the external command runner
(`module.run_command`) and the check-mode flag become an explicit `Env`
record, `module.fail_json` becomes the `Except.error` branch, and each
operation additionally returns the list of external commands it actually
executed, so that claims about commands *not* being run are statable.
-/

namespace LogstashPlugin

/-- Desired plugin state: the `state` module parameter, whose choices are
exactly "present" and "absent". -/
inductive DesiredState
  | present
  | absent
deriving DecidableEq, BEq, Repr

/-- PACKAGE_STATE_MAP: maps the state choice to the plugin-manager
subcommand. -/
def PACKAGE_STATE_MAP : DesiredState → String
  | .present => "install"
  | .absent => "remove"

/-- The string value of the `state` parameter. -/
def stateStr : DesiredState → String
  | .present => "present"
  | .absent => "absent"

/-- Python `" ".join(args)`. -/
def joinSpace : List String → String
  | [] => ""
  | [a] => a
  | a :: b :: rest => a ++ " " ++ joinSpace (b :: rest)

/-- The environment: the host command-execution facility
(`module.run_command`, returning exit code, stdout, stderr) and the
check-mode flag. -/
structure Env where
  run_command : String → Int × String × String
  check_mode : Bool

/-- Python truthiness of a `None`-or-string module parameter:
`None` and `""` are falsy, every other string is truthy. -/
def truthy : Option String → Bool
  | none => false
  | some s => !s.isEmpty

/-- The string carried by an optional parameter (`""` for `None`;
only ever read under `truthy`). -/
def optVal : Option String → String
  | none => ""
  | some s => s

/-- Characters stripped by Python `str.strip()`. -/
def pyWhitespace (c : Char) : Bool :=
  c == ' ' || c == '\t' || c == '\n' || c == '\r' || c == '\x0b' || c == '\x0c'

/-- Python `str.strip()` on a character list: remove leading and trailing
whitespace. -/
def strip (s : List Char) : List Char :=
  ((s.dropWhile pyWhitespace).reverse.dropWhile pyWhitespace).reverse

/-- Index of the first occurrence of `pat` as a contiguous substring of
`s` (Python `str.index`, with `none` for the `ValueError` case). -/
def findSubstr (pat : List Char) : List Char → Option Nat
  | [] => if pat.isEmpty then some 0 else none
  | c :: rest =>
    if pat.isPrefixOf (c :: rest) then some 0
    else (findSubstr pat rest).map (· + 1)

/-- `parse_error`: take everything after the first occurrence of
"reason: " and strip it; if the marker does not occur (`str.index`
raises ValueError), return the string unchanged. -/
def parse_error (string : String) : String :=
  let reason := "reason: "
  match findSubstr reason.data string.data with
  | some i => String.mk (strip (string.data.drop (i + reason.length)))
  | none => string

/-- `is_plugin_present`: run `<plugin_bin> list <plugin_name>` and report
presence iff the exit code is 0.  The second component records the
commands executed. -/
def is_plugin_present (env : Env) (plugin_bin plugin_name : String) :
    Bool × List String :=
  let cmd := joinSpace [plugin_bin, "list", plugin_name]
  let (rc, _out, _err) := env.run_command cmd
  (rc == 0, [cmd])

/-- The `cmd_args` list built by `install_plugin`. -/
def install_cmd_args (plugin_bin plugin_name : String)
    (version proxy_host proxy_port source : Option String) : List String :=
  let src := if truthy source then optVal source else plugin_name
  let cmd_args := [plugin_bin, PACKAGE_STATE_MAP .present, src]
  let cmd_args :=
    if truthy version then cmd_args ++ ["--version " ++ optVal version]
    else cmd_args
  if truthy proxy_host && truthy proxy_port then
    cmd_args ++
      ["-DproxyHost=" ++ optVal proxy_host ++ " -DproxyPort=" ++ optVal proxy_port]
  else cmd_args

/-- The command line built by `install_plugin`. -/
def install_cmd (plugin_bin plugin_name : String)
    (version proxy_host proxy_port source : Option String) : String :=
  joinSpace (install_cmd_args plugin_bin plugin_name version proxy_host proxy_port source)

/-- `install_plugin`: build the install command, short-circuit in check
mode, run it otherwise, and fail (`fail_json`, modelled as
`Except.error`) with the parsed reason on non-zero exit. -/
def install_plugin (env : Env) (plugin_bin plugin_name : String)
    (version proxy_host proxy_port source : Option String) :
    Except String (Bool × String × String × String) × List String :=
  let cmd := install_cmd plugin_bin plugin_name version proxy_host proxy_port source
  let ((rc, out, err), trace) :=
    if env.check_mode then (((0 : Int), "check mode", ""), ([] : List String))
    else (env.run_command cmd, [cmd])
  if rc ≠ 0 then (Except.error (parse_error out), trace)
  else (Except.ok (true, cmd, out, err), trace)

/-- The command line built by `remove_plugin`. -/
def remove_cmd (plugin_bin plugin_name : String) : String :=
  joinSpace [plugin_bin, PACKAGE_STATE_MAP .absent, plugin_name]

/-- `remove_plugin`: build the remove command, short-circuit in check
mode, run it otherwise, and fail with the parsed reason on non-zero
exit. -/
def remove_plugin (env : Env) (plugin_bin plugin_name : String) :
    Except String (Bool × String × String × String) × List String :=
  let cmd := remove_cmd plugin_bin plugin_name
  let ((rc, out, err), trace) :=
    if env.check_mode then (((0 : Int), "check mode", ""), ([] : List String))
    else (env.run_command cmd, [cmd])
  if rc ≠ 0 then (Except.error (parse_error out), trace)
  else (Except.ok (true, cmd, out, err), trace)

/-- The decision made by `main`'s branch structure: skip when the probed
presence already matches the desired state, otherwise install or
remove. -/
inductive Action
  | noOp
  | install
  | remove
deriving DecidableEq, Repr

/-- The decision step of `main` (the `if`/`elif` chain after the probe). -/
def decideAction (present : Bool) (state : DesiredState) : Action :=
  if (present && state == DesiredState.present) ||
     (state == DesiredState.absent && !present) then .noOp
  else if state == DesiredState.present then .install
  else .remove

/-- The command a given corrective action would execute. -/
def actionCmd (plugin_bin plugin_name : String)
    (version proxy_host proxy_port source : Option String) :
    Action → Option String
  | .noOp => none
  | .install => some (install_cmd plugin_bin plugin_name version proxy_host proxy_port source)
  | .remove => some (remove_cmd plugin_bin plugin_name)

/-- The record passed to `module.exit_json`: `cmd`, `stdout`, `stderr`
are `none` on the no-op exit, which passes only `changed`, `name` and
`state`. -/
structure ExitResult where
  changed : Bool
  cmd : Option String
  name : String
  state : String
  stdout : Option String
  stderr : Option String
deriving DecidableEq, Repr

/-- `main` after parameter extraction: probe, skip if the state is
correct, otherwise install or remove; `fail_json` is the `Except.error`
branch and the second component records every external command run. -/
def main_run (env : Env) (name : String) (state : DesiredState)
    (plugin_bin : String) (proxy_host proxy_port version source : Option String) :
    Except String ExitResult × List String :=
  let (present, trace0) := is_plugin_present env plugin_bin name
  if (present && state == DesiredState.present) ||
     (state == DesiredState.absent && !present) then
    (Except.ok ⟨false, none, name, stateStr state, none, none⟩, trace0)
  else if state == DesiredState.present then
    match install_plugin env plugin_bin name version proxy_host proxy_port source with
    | (Except.error msg, t) => (Except.error msg, trace0 ++ t)
    | (Except.ok (changed, cmd, out, err), t) =>
        (Except.ok ⟨changed, some cmd, name, stateStr state, some out, some err⟩, trace0 ++ t)
  else
    match remove_plugin env plugin_bin name with
    | (Except.error msg, t) => (Except.error msg, trace0 ++ t)
    | (Except.ok (changed, cmd, out, err), t) =>
        (Except.ok ⟨changed, some cmd, name, stateStr state, some out, some err⟩, trace0 ++ t)

/-- Whether the desired state asks for the plugin to be present. -/
def desiredPresent : DesiredState → Bool
  | .present => true
  | .absent => false

/-- How `main` packages the tuple returned by `install_plugin` /
`remove_plugin` into the final `exit_json` record (or propagates
`fail_json`), prepending the probe command to the trace. -/
def wrapResult (name stS probe : String) :
    Except String (Bool × String × String × String) × List String →
    Except String ExitResult × List String
  | (Except.error msg, t) => (Except.error msg, [probe] ++ t)
  | (Except.ok (changed, cmd, out, err), t) =>
      (Except.ok ⟨changed, some cmd, name, stS, some out, some err⟩, [probe] ++ t)

/-- A concrete environment whose every command exits 0. -/
def envOk : Env :=
  { run_command := fun _ => ((0 : Int), "ok", ""), check_mode := false }

/-- A concrete environment whose every command exits 1 with a reason in
its output. -/
def envFail : Env :=
  { run_command := fun _ => ((1 : Int), "oops reason: boom", ""), check_mode := false }

/-- A concrete check-mode environment whose every command exits 1. -/
def envCheck : Env :=
  { run_command := fun _ => ((1 : Int), "", ""), check_mode := true }

/-- The reconcile result of a successful remove of plugin "n" via
executable "b" under `envOk`. -/
def exitOkRemove : ExitResult :=
  ⟨true, some (remove_cmd "b" "n"), "n", "absent", some "ok", some ""⟩

/-! ### Helper lemmas -/

theorem is_plugin_present_eq (env : Env) (bin n : String) :
    is_plugin_present env bin n =
      ((env.run_command (joinSpace [bin, "list", n])).1 == 0,
       [joinSpace [bin, "list", n]]) := rfl

theorem joinSpace_append_one (a : String) (l : List String) (x : String) :
    joinSpace (a :: (l ++ [x])) = joinSpace (a :: l) ++ " " ++ x := by
  induction l generalizing a with
  | nil => rfl
  | cons b rest ih =>
      show a ++ " " ++ joinSpace (b :: (rest ++ [x])) =
        a ++ " " ++ joinSpace (b :: rest) ++ " " ++ x
      rw [ih b]
      simp [String.append_assoc]

theorem findSubstr_some_sub (pat s : List Char) (i : Nat)
    (h : findSubstr pat s = some i) : pat.isPrefixOf (s.drop i) = true := by
  induction s generalizing i with
  | nil =>
      unfold findSubstr at h
      cases hp : pat.isEmpty with
      | true =>
          rw [hp] at h
          simp at h
          subst h
          simp_all [List.isEmpty_iff]
      | false => rw [hp] at h; simp at h
  | cons c rest ih =>
      unfold findSubstr at h
      cases hpre : pat.isPrefixOf (c :: rest) with
      | true =>
          rw [hpre] at h
          simp at h
          subst h
          simpa using hpre
      | false =>
          rw [hpre] at h
          simp at h
          obtain ⟨k, hf, hk⟩ := h
          subst hk
          simpa [List.drop_succ_cons] using ih k hf

theorem findSubstr_some_lt (pat s : List Char) (i : Nat)
    (h : findSubstr pat s = some i) :
    ∀ j, j < i → pat.isPrefixOf (s.drop j) = false := by
  induction s generalizing i with
  | nil =>
      unfold findSubstr at h
      cases hp : pat.isEmpty with
      | true =>
          rw [hp] at h
          simp at h
          subst h
          intro j hj
          exact absurd hj (by omega)
      | false => rw [hp] at h; simp at h
  | cons c rest ih =>
      unfold findSubstr at h
      cases hpre : pat.isPrefixOf (c :: rest) with
      | true =>
          rw [hpre] at h
          simp at h
          subst h
          intro j hj
          exact absurd hj (by omega)
      | false =>
          rw [hpre] at h
          simp at h
          obtain ⟨k, hf, hk⟩ := h
          subst hk
          intro j hj
          cases j with
          | zero => simpa using hpre
          | succ j => simpa [List.drop_succ_cons] using ih k hf j (by omega)

theorem findSubstr_none_sub (pat s : List Char)
    (h : findSubstr pat s = none) :
    ∀ j, pat.isPrefixOf (s.drop j) = false := by
  induction s with
  | nil =>
      unfold findSubstr at h
      cases hp : pat.isEmpty with
      | true => rw [hp] at h; simp at h
      | false =>
          intro j
          cases pat with
          | nil => simp at hp
          | cons p ps => simp [List.drop_nil, List.isPrefixOf]
  | cons c rest ih =>
      unfold findSubstr at h
      cases hpre : pat.isPrefixOf (c :: rest) with
      | true => rw [hpre] at h; simp at h
      | false =>
          rw [hpre] at h
          simp at h
          intro j
          cases j with
          | zero => simpa using hpre
          | succ j => simpa [List.drop_succ_cons] using ih h j

@[simp] theorem beq_present_present :
    (DesiredState.present == DesiredState.present) = true := rfl

@[simp] theorem beq_present_absent :
    (DesiredState.present == DesiredState.absent) = false := rfl

@[simp] theorem beq_absent_present :
    (DesiredState.absent == DesiredState.present) = false := rfl

@[simp] theorem beq_absent_absent :
    (DesiredState.absent == DesiredState.absent) = true := rfl

theorem install_plugin_check (env : Env) (bin n : String)
    (version host port source : Option String)
    (hcm : env.check_mode = true) :
    install_plugin env bin n version host port source =
      (Except.ok (true, install_cmd bin n version host port source, "check mode", ""),
       []) := by
  unfold install_plugin
  rw [hcm]
  simp

theorem remove_plugin_check (env : Env) (bin n : String)
    (hcm : env.check_mode = true) :
    remove_plugin env bin n =
      (Except.ok (true, remove_cmd bin n, "check mode", ""), []) := by
  unfold remove_plugin
  rw [hcm]
  simp

theorem install_plugin_run (env : Env) (bin n : String)
    (version host port source : Option String) (rc : Int) (out err : String)
    (hcm : env.check_mode = false)
    (hr : env.run_command (install_cmd bin n version host port source) = (rc, out, err)) :
    install_plugin env bin n version host port source =
      (if rc ≠ 0 then Except.error (parse_error out)
       else Except.ok (true, install_cmd bin n version host port source, out, err),
       [install_cmd bin n version host port source]) := by
  by_cases h0 : rc = 0 <;> simp [install_plugin, hcm, hr, h0]

theorem remove_plugin_run (env : Env) (bin n : String) (rc : Int) (out err : String)
    (hcm : env.check_mode = false)
    (hr : env.run_command (remove_cmd bin n) = (rc, out, err)) :
    remove_plugin env bin n =
      (if rc ≠ 0 then Except.error (parse_error out)
       else Except.ok (true, remove_cmd bin n, out, err),
       [remove_cmd bin n]) := by
  by_cases h0 : rc = 0 <;> simp [remove_plugin, hcm, hr, h0]

theorem main_run_noop (env : Env) (n : String) (st : DesiredState) (bin : String)
    (host port version source : Option String)
    (h : decideAction (is_plugin_present env bin n).1 st = Action.noOp) :
    main_run env n st bin host port version source =
      (Except.ok ⟨false, none, n, stateStr st, none, none⟩,
       [joinSpace [bin, "list", n]]) := by
  unfold main_run
  rw [is_plugin_present_eq] at h ⊢
  cases st <;> cases hb : (env.run_command (joinSpace [bin, "list", n])).1 == 0 <;>
    simp_all [decideAction]

theorem main_run_install (env : Env) (n bin : String)
    (host port version source : Option String)
    (h : decideAction (is_plugin_present env bin n).1 DesiredState.present = Action.install) :
    main_run env n DesiredState.present bin host port version source =
      wrapResult n "present" (joinSpace [bin, "list", n])
        (install_plugin env bin n version host port source) := by
  unfold main_run
  rw [is_plugin_present_eq] at h ⊢
  cases hb : (env.run_command (joinSpace [bin, "list", n])).1 == 0
  · rcases hi : install_plugin env bin n version host port source with ⟨res, t⟩
    cases res <;> simp_all [wrapResult, stateStr]
  · simp_all [decideAction]

theorem main_run_remove (env : Env) (n bin : String)
    (host port version source : Option String)
    (h : decideAction (is_plugin_present env bin n).1 DesiredState.absent = Action.remove) :
    main_run env n DesiredState.absent bin host port version source =
      wrapResult n "absent" (joinSpace [bin, "list", n])
        (remove_plugin env bin n) := by
  unfold main_run
  rw [is_plugin_present_eq] at h ⊢
  cases hb : (env.run_command (joinSpace [bin, "list", n])).1 == 0
  · simp_all [decideAction]
  · rcases hi : remove_plugin env bin n with ⟨res, t⟩
    cases res <;> simp_all [wrapResult, stateStr]

@[simp] theorem truthy_none : truthy none = false := rfl

@[simp] theorem truthy_some_empty : truthy (some "") = false := by decide

/-! ### Claims -/

/-- C1: the decision step returns NoOp iff the probed presence matches the
desired state — NoOp exactly for (true, present) and (false, absent),
Install for (false, present), Remove for (true, absent) — and `main`
takes its changed=false no-corrective-command exit exactly when the
decision is NoOp. -/
theorem claim_C1_decide :
    (∀ (p : Bool) (d : DesiredState),
      (decideAction p d = Action.noOp ↔
        ((p = true ∧ d = DesiredState.present) ∨
         (p = false ∧ d = DesiredState.absent))) ∧
      decideAction false DesiredState.present = Action.install ∧
      decideAction true DesiredState.absent = Action.remove) ∧
    (∀ (env : Env) (n : String) (st : DesiredState) (bin : String)
        (host port version source : Option String),
      decideAction (is_plugin_present env bin n).1 st = Action.noOp ↔
        main_run env n st bin host port version source =
          (Except.ok ⟨false, none, n, stateStr st, none, none⟩,
           [joinSpace [bin, "list", n]])) := by
  constructor
  · intro p d
    refine ⟨?_, by decide, by decide⟩
    cases p <;> cases d <;> simp [decideAction]
  intro env n st bin host port version source
  constructor
  · exact main_run_noop env n st bin host port version source
  · intro heq
    by_contra hno
    cases st with
    | present =>
        cases hb : (is_plugin_present env bin n).1 with
        | true => exact hno (by simp [decideAction, hb])
        | false =>
            have hi := main_run_install env n bin host port version source
              (by simp [decideAction, hb])
            rw [hi] at heq
            rcases hr : install_plugin env bin n version host port source with ⟨res, t⟩
            rw [hr] at heq
            cases res <;> simp [wrapResult] at heq
    | absent =>
        cases hb : (is_plugin_present env bin n).1 with
        | false => exact hno (by simp [decideAction, hb])
        | true =>
            have hi := main_run_remove env n bin host port version source
              (by simp [decideAction, hb])
            rw [hi] at heq
            rcases hr : remove_plugin env bin n with ⟨res, t⟩
            rw [hr] at heq
            cases res <;> simp [wrapResult] at heq

/-- Witness for C1 at a concrete input: presence true with desired
present decides NoOp. -/
theorem claim_C1_decide_witness :
    decideAction true DesiredState.present = Action.noOp :=
  (claim_C1_decide.1 true DesiredState.present).1.mpr (Or.inl ⟨rfl, rfl⟩)

/-- C7: the built install command line is
`<executable> install <source-or-name>`, with `--version <version>`
appended when a version was specified; with no explicit source the plugin
name itself is the install source token. -/
theorem claim_C7_install_cmd_shape (bin n : String) (version source : Option String) :
    install_cmd bin n version none none source =
      bin ++ " " ++ ("install " ++
        ((if truthy source then optVal source else n) ++
         (if truthy version then " " ++ ("--version " ++ optVal version) else ""))) := by
  cases hv : truthy version <;> cases hs : truthy source <;>
    simp [install_cmd, install_cmd_args, PACKAGE_STATE_MAP, joinSpace, hv, hs,
      String.append_assoc, String.append_empty]

/-- C3: the proxy flags `-DproxyHost=<h> -DproxyPort=<p>` are appended to
the install command line iff both proxy host and proxy port are truthy;
with at most one of them given, the command equals the no-proxy command
exactly. -/
theorem claim_C3_proxy_flags (bin n : String)
    (version host port source : Option String) :
    (truthy host = true ∧ truthy port = true →
      install_cmd bin n version host port source =
        install_cmd bin n version none none source ++ " " ++
          ("-DproxyHost=" ++ optVal host ++ " -DproxyPort=" ++ optVal port)) ∧
    (¬(truthy host = true ∧ truthy port = true) →
      install_cmd bin n version host port source =
        install_cmd bin n version none none source) := by
  constructor
  · rintro ⟨hh, hp⟩
    have hargs : install_cmd_args bin n version host port source =
        install_cmd_args bin n version none none source ++
          ["-DproxyHost=" ++ optVal host ++ " -DproxyPort=" ++ optVal port] := by
      simp [install_cmd_args, hh, hp]
    have hcons : install_cmd_args bin n version none none source =
        bin :: (install_cmd_args bin n version none none source).tail := by
      cases hv : truthy version <;> simp [install_cmd_args, hv]
    unfold install_cmd
    rw [hargs, hcons, List.cons_append, joinSpace_append_one, ← hcons]
  · intro hnb
    have hfl : (truthy host && truthy port) = false := by
      cases hh : truthy host <;> cases hp : truthy port <;> simp_all
    simp [install_cmd, install_cmd_args, hfl]

/-- Witness for C3 at a concrete input: with both proxy host and port
given, the flag pair is appended. -/
theorem claim_C3_proxy_flags_witness :
    (truthy (some "ph") = true ∧ truthy (some "81") = true) ∧
    install_cmd "b" "x" none (some "ph") (some "81") none =
      install_cmd "b" "x" none none none none ++ " " ++
        ("-DproxyHost=" ++ optVal (some "ph") ++ " -DproxyPort=" ++ optVal (some "81")) :=
  ⟨⟨by decide, by decide⟩,
   (claim_C3_proxy_flags "b" "x" none (some "ph") (some "81") none).1
     ⟨by decide, by decide⟩⟩

/-- C10: an empty-string version, proxy host, proxy port or source is
treated by install command construction exactly as the omitted
parameter. -/
theorem claim_C10_empty_unspecified (bin n : String)
    (version host port source : Option String) :
    install_cmd bin n (some "") host port source =
        install_cmd bin n none host port source ∧
    install_cmd bin n version (some "") port source =
        install_cmd bin n version none port source ∧
    install_cmd bin n version host (some "") source =
        install_cmd bin n version host none source ∧
    install_cmd bin n version host port (some "") =
        install_cmd bin n version host port none := by
  refine ⟨?_, ?_, ?_, ?_⟩ <;> simp [install_cmd, install_cmd_args]

/-- C2: if the output contains the marker "reason: " (first occurrence at
position i, characterized abstractly as the least position where the
marker is a prefix of the tail), `parse_error` returns everything after
the marker, whitespace-stripped; if the marker occurs nowhere,
`parse_error` returns the whole output unchanged. -/
theorem claim_C2_parse_error (s : String) :
    (∀ i : Nat,
        List.isPrefixOf ("reason: ".data) (s.data.drop i) = true →
        (∀ j, j < i → List.isPrefixOf ("reason: ".data) (s.data.drop j) = false) →
        parse_error s = String.mk (strip (s.data.drop (i + 8)))) ∧
    ((∀ i : Nat, List.isPrefixOf ("reason: ".data) (s.data.drop i) = false) →
      parse_error s = s) := by
  constructor
  · intro i hpre hmin
    cases hf : findSubstr ("reason: ".data) s.data with
    | none =>
        have := findSubstr_none_sub _ _ hf i
        rw [hpre] at this
        cases this
    | some k =>
        have hk := findSubstr_some_sub _ _ _ hf
        have hkmin := findSubstr_some_lt _ _ _ hf
        have hik : i = k := by
          rcases lt_trichotomy i k with hlt | heq | hgt
          · have := hkmin i hlt
            rw [hpre] at this
            cases this
          · exact heq
          · have := hmin k hgt
            rw [hk] at this
            cases this
        subst hik
        simp only [parse_error, hf]
        rfl
  · intro hall
    cases hf : findSubstr ("reason: ".data) s.data with
    | none => simp [parse_error, hf]
    | some k =>
        have hk := findSubstr_some_sub _ _ _ hf
        rw [hall k] at hk
        cases hk

/-- Witness for C2 at a concrete input: the marker first occurs at
position 8 of "failed, reason: disk full" and the extracted message is
exactly "disk full". -/
theorem claim_C2_parse_error_witness :
    parse_error "failed, reason: disk full" = "disk full" :=
  ((claim_C2_parse_error "failed, reason: disk full").1 8 (by decide)
    (by decide)).trans (by decide)

/-- C4: in check mode neither install nor remove runs its external
command (their traces are empty; the reconcile trace holds only the
probe), the execution result is synthesized as exit 0 / stdout
"check mode" / empty stderr, and when a corrective action is decided the
reported result has changed = true. -/
theorem claim_C4_check_mode (env : Env) (n : String) (st : DesiredState) (bin : String)
    (host port version source : Option String)
    (hcm : env.check_mode = true) :
    install_plugin env bin n version host port source =
      (Except.ok (true, install_cmd bin n version host port source, "check mode", ""),
       []) ∧
    remove_plugin env bin n =
      (Except.ok (true, remove_cmd bin n, "check mode", ""), []) ∧
    (decideAction (is_plugin_present env bin n).1 st ≠ Action.noOp →
      ∃ c, main_run env n st bin host port version source =
        (Except.ok ⟨true, some c, n, stateStr st, some "check mode", some ""⟩,
         [joinSpace [bin, "list", n]])) := by
  refine ⟨install_plugin_check env bin n version host port source hcm,
          remove_plugin_check env bin n hcm, ?_⟩
  intro hact
  cases st with
  | present =>
      cases hb : (is_plugin_present env bin n).1 with
      | true => exact absurd (by simp [decideAction, hb]) hact
      | false =>
          refine ⟨install_cmd bin n version host port source, ?_⟩
          rw [main_run_install env n bin host port version source
                (by simp [decideAction, hb]),
              install_plugin_check env bin n version host port source hcm]
          rfl
  | absent =>
      cases hb : (is_plugin_present env bin n).1 with
      | false => exact absurd (by simp [decideAction, hb]) hact
      | true =>
          refine ⟨remove_cmd bin n, ?_⟩
          rw [main_run_remove env n bin host port version source
                (by simp [decideAction, hb]),
              remove_plugin_check env bin n hcm]
          rfl

/-- Witness for C4 at a concrete input: a check-mode environment whose
probe reports absent, with desired state present. -/
theorem claim_C4_check_mode_witness :
    install_plugin envCheck "b" "n" none none none none =
      (Except.ok (true, install_cmd "b" "n" none none none none, "check mode", ""),
       []) ∧
    remove_plugin envCheck "b" "n" =
      (Except.ok (true, remove_cmd "b" "n", "check mode", ""), []) ∧
    (decideAction (is_plugin_present envCheck "b" "n").1 DesiredState.present ≠ Action.noOp →
      ∃ c, main_run envCheck "n" DesiredState.present "b" none none none none =
        (Except.ok ⟨true, some c, "n", stateStr DesiredState.present,
           some "check mode", some ""⟩,
         [joinSpace ["b", "list", "n"]])) :=
  claim_C4_check_mode envCheck "n" DesiredState.present "b" none none none none rfl

/-- C5: the probe runs `<executable> list <name>` (and nothing else) and
reports the plugin present iff that command exits 0; every non-zero exit
maps to absent and the probe itself never fails. -/
theorem claim_C5_probe (env : Env) (bin n : String) :
    ((is_plugin_present env bin n).1 = true ↔
      (env.run_command (joinSpace [bin, "list", n])).1 = 0) ∧
    (is_plugin_present env bin n).2 = [joinSpace [bin, "list", n]] := by
  rw [is_plugin_present_eq]
  exact ⟨by simp, rfl⟩

/-- Witness for C5 at a concrete input: under an environment whose every
command exits 0 the probe reports present. -/
theorem claim_C5_probe_witness : (is_plugin_present envOk "b" "n").1 = true :=
  (claim_C5_probe envOk "b" "n").1.mpr rfl

/-- C6: outside check mode, a corrective command exiting non-zero makes
reconciliation fail immediately with the parsed reason as the sole
message, the corrective command having been issued exactly once (the
trace is probe followed by the single corrective command); and
reconciliation fails only that way. -/
theorem claim_C6_failure (env : Env) (n : String) (st : DesiredState) (bin : String)
    (host port version source : Option String)
    (hcm : env.check_mode = false) :
    (∀ msg, (main_run env n st bin host port version source).1 = Except.error msg →
      ∃ c, actionCmd bin n version host port source
              (decideAction (is_plugin_present env bin n).1 st) = some c ∧
        (env.run_command c).1 ≠ 0 ∧
        msg = parse_error (env.run_command c).2.1 ∧
        (main_run env n st bin host port version source).2 =
          [joinSpace [bin, "list", n], c]) ∧
    (∀ c, actionCmd bin n version host port source
            (decideAction (is_plugin_present env bin n).1 st) = some c →
      (env.run_command c).1 ≠ 0 →
      (main_run env n st bin host port version source).1 =
        Except.error (parse_error (env.run_command c).2.1)) := by
  cases st with
  | present =>
      cases hb : (is_plugin_present env bin n).1 with
      | true =>
          have hno : decideAction (is_plugin_present env bin n).1 DesiredState.present =
              Action.noOp := by simp [decideAction, hb]
          have hmain := main_run_noop env n DesiredState.present bin host port version source hno
          constructor
          · intro msg hmsg
            rw [hmain] at hmsg
            simp at hmsg
          · intro c hc
            simp [decideAction, actionCmd] at hc
      | false =>
          have hdec : decideAction (is_plugin_present env bin n).1 DesiredState.present =
              Action.install := by simp [decideAction, hb]
          have hmain := main_run_install env n bin host port version source hdec
          rcases hr : env.run_command (install_cmd bin n version host port source)
            with ⟨rc, out, err⟩
          have hip := install_plugin_run env bin n version host port source rc out err hcm hr
          by_cases h0 : rc = 0
          · constructor
            · intro msg hmsg
              rw [hmain, hip] at hmsg
              simp [h0, wrapResult] at hmsg
            · intro c hc h1
              simp [decideAction, actionCmd] at hc
              subst hc
              rw [hr] at h1
              exact absurd h0 h1
          · constructor
            · intro msg hmsg
              rw [hmain, hip] at hmsg
              simp [h0, wrapResult] at hmsg
              refine ⟨install_cmd bin n version host port source, ?_, ?_, ?_, ?_⟩
              · simp [decideAction, actionCmd]
              · rw [hr]
                exact h0
              · rw [hr]
                exact hmsg.symm
              · rw [hmain, hip]
                simp [h0, wrapResult]
            · intro c hc h1
              simp [decideAction, actionCmd] at hc
              subst hc
              rw [hmain, hip, hr]
              simp [h0, wrapResult]
  | absent =>
      cases hb : (is_plugin_present env bin n).1 with
      | false =>
          have hno : decideAction (is_plugin_present env bin n).1 DesiredState.absent =
              Action.noOp := by simp [decideAction, hb]
          have hmain := main_run_noop env n DesiredState.absent bin host port version source hno
          constructor
          · intro msg hmsg
            rw [hmain] at hmsg
            simp at hmsg
          · intro c hc
            simp [decideAction, actionCmd] at hc
      | true =>
          have hdec : decideAction (is_plugin_present env bin n).1 DesiredState.absent =
              Action.remove := by simp [decideAction, hb]
          have hmain := main_run_remove env n bin host port version source hdec
          rcases hr : env.run_command (remove_cmd bin n) with ⟨rc, out, err⟩
          have hip := remove_plugin_run env bin n rc out err hcm hr
          by_cases h0 : rc = 0
          · constructor
            · intro msg hmsg
              rw [hmain, hip] at hmsg
              simp [h0, wrapResult] at hmsg
            · intro c hc h1
              simp [decideAction, actionCmd] at hc
              subst hc
              rw [hr] at h1
              exact absurd h0 h1
          · constructor
            · intro msg hmsg
              rw [hmain, hip] at hmsg
              simp [h0, wrapResult] at hmsg
              refine ⟨remove_cmd bin n, ?_, ?_, ?_, ?_⟩
              · simp [decideAction, actionCmd]
              · rw [hr]
                exact h0
              · rw [hr]
                exact hmsg.symm
              · rw [hmain, hip]
                simp [h0, wrapResult]
            · intro c hc h1
              simp [decideAction, actionCmd] at hc
              subst hc
              rw [hmain, hip, hr]
              simp [h0, wrapResult]

/-- Witness for C6 at a concrete input: every command of `envFail` exits
1 with output "oops reason: boom", so reconciling towards present fails
with message "boom". -/
theorem claim_C6_failure_witness :
    (main_run envFail "n" DesiredState.present "b" none none none none).1 =
      Except.error (parse_error (envFail.run_command
        (install_cmd "b" "n" none none none none)).2.1) ∧
    parse_error (envFail.run_command
      (install_cmd "b" "n" none none none none)).2.1 = "boom" :=
  ⟨(claim_C6_failure envFail "n" DesiredState.present "b" none none none none rfl).2
     (install_cmd "b" "n" none none none none) (by decide) (by decide),
   by decide⟩

/-- C8: on any successful reconcile, changed = true only when a
corrective command was issued (its command line is in the result, and
outside check mode it was executed — it is in the trace — and exited 0);
in the no-op case the result is changed = false with no cmd, stdout or
stderr field. -/
theorem claim_C8_invariant (env : Env) (n : String) (st : DesiredState) (bin : String)
    (host port version source : Option String) (r : ExitResult)
    (h : (main_run env n st bin host port version source).1 = Except.ok r) :
    (r.changed = true →
      ∃ c, r.cmd = some c ∧
        (env.check_mode = false →
          (env.run_command c).1 = 0 ∧
          c ∈ (main_run env n st bin host port version source).2)) ∧
    (decideAction (is_plugin_present env bin n).1 st = Action.noOp →
      r = ⟨false, none, n, stateStr st, none, none⟩) := by
  cases st with
  | present =>
      cases hb : (is_plugin_present env bin n).1 with
      | true =>
          have hno : decideAction (is_plugin_present env bin n).1 DesiredState.present =
              Action.noOp := by simp [decideAction, hb]
          rw [main_run_noop env n DesiredState.present bin host port version source hno] at h
          simp at h
          subst h
          exact ⟨fun hc => Bool.noConfusion hc, fun _ => rfl⟩
      | false =>
          have hdec : decideAction (is_plugin_present env bin n).1 DesiredState.present =
              Action.install := by simp [decideAction, hb]
          have hmain := main_run_install env n bin host port version source hdec
          refine ⟨?_, ?_⟩
          case refine_2 =>
            intro hno
            simp [decideAction] at hno
          intro hch
          cases hcm : env.check_mode with
          | true =>
              rw [hmain,
                  install_plugin_check env bin n version host port source hcm] at h
              simp [wrapResult] at h
              subst h
              refine ⟨install_cmd bin n version host port source, rfl, ?_⟩
              intro hf
              cases hf
          | false =>
              rcases hr : env.run_command (install_cmd bin n version host port source)
                with ⟨rc, out, err⟩
              have hip := install_plugin_run env bin n version host port source
                rc out err hcm hr
              by_cases h0 : rc = 0
              · rw [hmain, hip] at h
                simp [h0, wrapResult] at h
                subst h
                refine ⟨install_cmd bin n version host port source, rfl, ?_⟩
                intro _
                constructor
                · rw [hr]
                  exact h0
                · rw [hmain, hip]
                  simp [h0, wrapResult]
              · rw [hmain, hip] at h
                simp [h0, wrapResult] at h
  | absent =>
      cases hb : (is_plugin_present env bin n).1 with
      | false =>
          have hno : decideAction (is_plugin_present env bin n).1 DesiredState.absent =
              Action.noOp := by simp [decideAction, hb]
          rw [main_run_noop env n DesiredState.absent bin host port version source hno] at h
          simp at h
          subst h
          exact ⟨fun hc => Bool.noConfusion hc, fun _ => rfl⟩
      | true =>
          have hdec : decideAction (is_plugin_present env bin n).1 DesiredState.absent =
              Action.remove := by simp [decideAction, hb]
          have hmain := main_run_remove env n bin host port version source hdec
          refine ⟨?_, ?_⟩
          case refine_2 =>
            intro hno
            simp [decideAction] at hno
          intro hch
          cases hcm : env.check_mode with
          | true =>
              rw [hmain, remove_plugin_check env bin n hcm] at h
              simp [wrapResult] at h
              subst h
              refine ⟨remove_cmd bin n, rfl, ?_⟩
              intro hf
              cases hf
          | false =>
              rcases hr : env.run_command (remove_cmd bin n) with ⟨rc, out, err⟩
              have hip := remove_plugin_run env bin n rc out err hcm hr
              by_cases h0 : rc = 0
              · rw [hmain, hip] at h
                simp [h0, wrapResult] at h
                subst h
                refine ⟨remove_cmd bin n, rfl, ?_⟩
                intro _
                constructor
                · rw [hr]
                  exact h0
                · rw [hmain, hip]
                  simp [h0, wrapResult]
              · rw [hmain, hip] at h
                simp [h0, wrapResult] at h

/-- Witness for C8 at a concrete input: a successful remove under
`envOk` (probe reports present, desired state absent). -/
theorem claim_C8_invariant_witness :
    (exitOkRemove.changed = true →
      ∃ c, exitOkRemove.cmd = some c ∧
        (envOk.check_mode = false →
          (envOk.run_command c).1 = 0 ∧
          c ∈ (main_run envOk "n" DesiredState.absent "b" none none none none).2)) ∧
    (decideAction (is_plugin_present envOk "b" "n").1 DesiredState.absent = Action.noOp →
      exitOkRemove = ⟨false, none, "n", stateStr DesiredState.absent, none, none⟩) :=
  claim_C8_invariant envOk "n" DesiredState.absent "b" none none none none
    exitOkRemove rfl

/-- C9: running reconcile a second time reports changed = false, under
the hypothesis that (after the first completed run) the tool's list
command reflects the desired state, i.e. the second probe matches it. -/
theorem claim_C9_idempotent (env1 env2 : Env) (n : String) (st : DesiredState)
    (bin : String) (host port version source : Option String) (r1 : ExitResult)
    (h1 : (main_run env1 n st bin host port version source).1 = Except.ok r1)
    (h2 : (is_plugin_present env2 bin n).1 = desiredPresent st) :
    (main_run env2 n st bin host port version source).1 =
      Except.ok ⟨false, none, n, stateStr st, none, none⟩ := by
  have hno : decideAction (is_plugin_present env2 bin n).1 st = Action.noOp := by
    cases st <;> simp_all [decideAction, desiredPresent]
  rw [main_run_noop env2 n st bin host port version source hno]

/-- Witness for C9 at a concrete input: the first run under `envOk`
removes the plugin; under `envFail` the second probe reports absent
(matching the desired state) and the second run reports
changed = false. -/
theorem claim_C9_idempotent_witness :
    (main_run envFail "n" DesiredState.absent "b" none none none none).1 =
      Except.ok ⟨false, none, "n", stateStr DesiredState.absent, none, none⟩ :=
  claim_C9_idempotent envOk envFail "n" DesiredState.absent "b" none none none none
    exitOkRemove rfl rfl

end LogstashPlugin
